import Mathlib

/-!
# Lobby & Game-Addressing Subsystem — verification development

Shallow embedding of the jesterui lobby subsystem: the identifier codec
(`gameIdToJesterId` / `jesterIdToGameId` / `tryParseJesterId`), the windowed
discovery queries of `LobbyPage`, the current-game tracker, the search page
state transitions of `SearchPage`, and the development batch-game creator.

Strings are embedded as `List Char`, JS numbers holding integral timestamps
as `Int` (milliseconds where the source uses `Date.getTime()`), and byte
sequences as `List Nat` with an explicit validity predicate.
-/

set_option maxRecDepth 40000

namespace Jester

/-- A raw protocol-level game identifier is valid when it is exactly 32 bytes,
each byte below 256. -/
def ValidRaw (bs : List Nat) : Prop := bs.length = 32 ∧ ∀ b ∈ bs, b < 256

instance : DecidablePred ValidRaw := fun bs =>
  inferInstanceAs (Decidable (bs.length = 32 ∧ ∀ b ∈ bs, b < 256))

/-- Modelled from the spec: the codec module (`src/util/jester`) is not among
the provided sources, only its callers are. The spec fixes the identifier
format as a fixed literal prefix (`jester`), a separator (`1`, visible in
`SearchPage` as `JESTER_ID_PREFIX + '1'`), and a checksummed base-32 encoding
of the 32 raw bytes. This is the 32-character data alphabet of that
encoding. -/
def charset : List Char :=
  ['q', 'p', 'z', 'r', 'y', '9', 'x', '8', 'g', 'f', '2', 't', 'v', 'd', 'w', '0',
   's', '3', 'j', 'n', '5', '4', 'k', 'h', 'c', 'e', '6', 'm', 'u', 'a', '7', 'l']

/-- The character encoding a 5-bit group value. -/
def valToChar (v : Nat) : Char := charset.getD v '?'

/-- Decode one character back to its 5-bit group value; `none` when the
character is not part of the data alphabet. -/
def charToVal (c : Char) : Option Nat :=
  go charset 0
where
  go : List Char → Nat → Option Nat
    | [], _ => none
    | d :: ds, i => if d = c then some i else go ds (i + 1)

/-- The literal prefix and separator of every public game identifier. -/
def prefixChars : List Char := ['j', 'e', 's', 't', 'e', 'r', '1']

/-- The six-character literal tag of the identifier namespace
(`JESTER_ID_PREFIX` in `SearchPage`); the full prefix appends the
separator `'1'`. -/
def JESTER_ID_PREFIX : List Char := ['j', 'e', 's', 't', 'e', 'r']

/-- Split each byte into two 5-bit-range groups (high 3 bits, low 5 bits). -/
def pack : List Nat → List Nat
  | [] => []
  | b :: bs => b / 32 :: b % 32 :: pack bs

/-- Recombine value pairs into bytes; fails structurally on odd length or a
high group out of range. -/
def unpack : List Nat → Option (List Nat)
  | [] => some []
  | [_] => none
  | c1 :: c2 :: rest =>
    if c1 < 8 then (unpack rest).map (fun bs => (32 * c1 + c2) :: bs) else none

/-- The embedded checksum over the data groups. -/
def checksum (vals : List Nat) : Nat := vals.sum % 32

/-- Decode every character of a payload to its group value; fails on the
first character outside the alphabet. -/
def mapVals : List Char → Option (List Nat)
  | [] => some []
  | c :: cs =>
    match charToVal c with
    | none => none
    | some v => (mapVals cs).map (fun vs => v :: vs)

/-- Modelled from the spec: `gameIdToJesterId` of `src/util/jester` — the
total encoder. Prefix, separator, base-32 data groups of the 32 bytes,
followed by the embedded checksum character. -/
def gameIdToJesterId (bs : List Nat) : List Char :=
  prefixChars ++ (pack bs ++ [checksum (pack bs)]).map valToChar

/-- First index at which `pat` occurs inside `s` (the JS `String.indexOf`
used by `SearchPage` to locate the identifier inside a larger string). -/
def findOcc (pat : List Char) : List Char → Option Nat
  | [] => if pat.isPrefixOf ([] : List Char) then some 0 else none
  | c :: rest =>
    if pat.isPrefixOf (c :: rest) then some 0
    else (findOcc pat rest).map (· + 1)

/-- The tagged failure kinds of the decoder. -/
inductive ParseFailure
  | malformedIdentifier
  | invalidEncoding
  | checksumMismatch
  deriving DecidableEq, Repr

instance {ε α : Type} [DecidableEq ε] [DecidableEq α] : DecidableEq (Except ε α) := fun x y =>
  match x, y with
  | .ok a, .ok b => if h : a = b then .isTrue (by rw [h]) else .isFalse (by simp [h])
  | .error e, .error f => if h : e = f then .isTrue (by rw [h]) else .isFalse (by simp [h])
  | .ok _, .error _ => .isFalse (by simp)
  | .error _, .ok _ => .isFalse (by simp)

/-- Modelled from the spec: the decoder of `src/util/jester`. Locates the
prefix occurrence anywhere in the candidate (`MalformedIdentifier` when
absent), decodes the remainder under the checksummed encoding
(`InvalidEncoding` on a structural failure: foreign character, missing
checksum character, odd grouping, high group out of range, wrong byte
count), and finally verifies the checksum (`ChecksumMismatch`). Always
returns a tagged result. -/
def decodeJesterId (s : List Char) : Except ParseFailure (List Nat) :=
  match findOcc prefixChars s with
  | none => .error .malformedIdentifier
  | some i =>
    let payload := s.drop (i + prefixChars.length)
    match mapVals payload with
    | none => .error .invalidEncoding
    | some vs =>
      match vs.getLast? with
      | none => .error .invalidEncoding
      | some ck =>
        match unpack vs.dropLast with
        | none => .error .invalidEncoding
        | some bs =>
          if bs.length = 32 then
            if ck = checksum vs.dropLast then .ok bs
            else .error .checksumMismatch
          else .error .invalidEncoding

/-- Modelled from the spec: `jesterIdToGameId` of `src/util/jester` (used by
`LobbyPage` to turn the persisted current-game identifier back into a raw
id); a partial inverse of `gameIdToJesterId`. -/
def jesterIdToGameId (jesterId : List Char) : Option (List Nat) :=
  (decodeJesterId jesterId).toOption

/-- Modelled from the spec: `tryParseJesterId` of `src/util/jester` —
validates a candidate and returns it unchanged when it parses, `null`
otherwise. -/
def tryParseJesterId (candidate : List Char) : Option (List Char) :=
  match decodeJesterId candidate with
  | .ok _ => some candidate
  | .error _ => none

/-- Modelled from the spec: `jesterPrivateStartGameRef` of `src/util/jester`
— `deriveReferenceTag`: pure, deterministic, total; distinct public keys
yield distinct tags (the source derives the tag cryptographically, which the
spec idealises as collision-free; the model realises that by an injective
construction). -/
def jesterPrivateStartGameRef (publicKey : List Char) : List Char :=
  'r' :: 'e' :: 'f' :: publicKey

end Jester

namespace Lobby

open Jester

/-- One observed game-start event (`GameStartEvent` of `src/util/app_db`,
consumed by `LobbyPage`): raw 32-byte id, initiating player's public key,
creation timestamp in seconds, and the opaque tag values of the event. -/
structure GameStartRecord where
  id : List Nat
  pubkey : List Char
  created_at : Int
  event_tags : List (List Char)
  deriving DecidableEq, Repr

/-- `GAMES_FILTER_PAST_DURATION_IN_MINUTES`: 30 in development mode, 5
otherwise. -/
def GAMES_FILTER_PAST_DURATION_IN_MINUTES (development : Bool) : Int :=
  if development then 30 else 5

def GAMES_FILTER_PAST_DURATION_IN_SECONDS (development : Bool) : Int :=
  GAMES_FILTER_PAST_DURATION_IN_MINUTES development * 60

def MAX_AMOUNT_OF_GAMES : Nat := 100

def MIN_UPDATE_IN_SECONDS : Nat := 10

/-- The `GamesFilter` interface of `LobbyPage`. The source fields are named
`from` and `until` and hold `Date` values; they are embedded as integer
milliseconds since the epoch (`Date.getTime()`), renamed because `from` is a
Lean keyword. -/
structure GamesFilter where
  fromTime : Int
  untilTime : Int
  deriving DecidableEq, Repr

/-- `createGameOverviewFilter`: the discovery window around `now`
(milliseconds). -/
def createGameOverviewFilter (development : Bool) (now : Int) : GamesFilter :=
  { fromTime := now - GAMES_FILTER_PAST_DURATION_IN_SECONDS development * 1000
    untilTime := now + GAMES_FILTER_PAST_DURATION_IN_SECONDS development * 1000 }

/-- The range condition of the public-games live query. The source queries
`where('created_at').between(from.getTime() / 1000, until.getTime() / 1000)`;
Dexie's `between` includes the lower bound and excludes the upper bound by
default, and the JS division is exact rational division, so comparing the
integer `created_at` (seconds) against the fractional bounds is equivalent to
comparing `created_at * 1000` against the millisecond bounds. -/
def inWindow (f : GamesFilter) (r : GameStartRecord) : Bool :=
  decide (f.fromTime ≤ r.created_at * 1000) && decide (r.created_at * 1000 < f.untilTime)

/-- The ordering of the external store's `created_at` index (the store is an
external collaborator; the spec describes its range query as returning
records ordered by creation timestamp). -/
def byTime (a b : GameStartRecord) : Prop := a.created_at ≤ b.created_at

instance : DecidableRel byTime := fun x y =>
  inferInstanceAs (Decidable (x.created_at ≤ y.created_at))

instance : IsTotal GameStartRecord byTime := ⟨fun a b => Int.le_total a.created_at b.created_at⟩

instance : IsTrans GameStartRecord byTime := ⟨fun _ _ _ => Int.le_trans⟩

/-- Modelled from the spec: the external event store (Dexie) is consumed
only as "a queryable table of events supporting range queries on a timestamp
field and equality queries on a tag field", returning an ordered sequence;
the store itself is embedded as the list of ingested records, a query as the
matching records in the store's creation-time order, truncated by
`limit`. -/
def storeQuery (store : List GameStartRecord) (p : GameStartRecord → Bool)
    (limit : Nat) : List GameStartRecord :=
  (List.insertionSort byTime (store.filter p)).take limit

/-- `listOfStartGamesLiveQuery` of `LobbyPage`: range query on `created_at`,
limited to `MAX_AMOUNT_OF_GAMES`. -/
def listOfStartGames (store : List GameStartRecord) (f : GamesFilter) :
    List GameStartRecord :=
  storeQuery store (inWindow f) MAX_AMOUNT_OF_GAMES

/-- The tag condition of the private-challenges live query
(`where('event_tags').equals(privateStartGameRef)` over the multi-entry tag
index). -/
def hasTag (tag : List Char) (r : GameStartRecord) : Bool :=
  decide (tag ∈ r.event_tags)

/-- `listOfPrivateStartGamesLiveQuery` of `LobbyPage`: `null` when no
viewer key (hence no reference tag) is available, otherwise the store's
tag-equality lookup limited to 3 results. -/
def listOfPrivateStartGames (store : List GameStartRecord)
    (publicKeyOrNull : Option (List Char)) : Option (List GameStartRecord) :=
  match publicKeyOrNull with
  | none => none
  | some pk => some (storeQuery store (hasTag (jesterPrivateStartGameRef pk)) 3)

/-- The list the rendering layer receives (`listOfPrivateStartGamesLiveQuery
|| []`). -/
def privateGamesPresented (store : List GameStartRecord)
    (publicKeyOrNull : Option (List Char)) : List GameStartRecord :=
  (listOfPrivateStartGames store publicKeyOrNull).getD []

/-- Sortedness by creation time. -/
def SortedByTime (l : List GameStartRecord) : Prop := l.Sorted byTime

/-- `currentGameId` of `LobbyPage`:
`settings.currentGameJesterId && jesterIdToGameId(settings.currentGameJesterId)` —
the raw id decoded from the persisted current-game identifier, absent when no
identifier is held. -/
def currentGameId (currentGameJesterId : Option (List Char)) : Option (List Nat) :=
  currentGameJesterId.bind jesterIdToGameId

/-- The per-entry check of `GameList`:
`game.id === props.currentGameId` (a strict equality against a possibly
absent value — `false` when absent). A pure function: it computes a boolean
and touches no state. -/
def isCurrentGame (game : GameStartRecord) (currentId : Option (List Nat)) : Bool :=
  match currentId with
  | none => false
  | some gid => decide (game.id = gid)

/-- The current-game tracker's transitions. `setCurrent` is the dispatch of a
new `currentGameJesterId` when the user starts or accepts a game;
`clearCurrent` is `unsubscribeFromCurrentGame` of `CurrentGameCard`
(`settingsDispatch with currentGameJesterId undefined`, triggered by the
close button). The settings reducer itself lives in `SettingsContext`,
outside the provided sources; its merge semantics for a single field are
modelled from the spec as plain replacement. -/
inductive TrackerEvent
  | setCurrent (id : List Char)
  | clearCurrent
  deriving DecidableEq, Repr

/-- The tracker state is the persisted `currentGameJesterId`: at most one
value, by the very shape of the type. -/
def trackerStep : TrackerEvent → Option (List Char) → Option (List Char)
  | .setCurrent id, _ => some id
  | .clearCurrent, _ => none

/-- `isCurrent` consulted by the rendering layer for a discovered record. -/
def isCurrent (game : GameStartRecord) (state : Option (List Char)) : Bool :=
  isCurrentGame game (currentGameId state)

/-- The discovery component's reactive state: the held window and the last
applied public-games result (`null` before the first completion). -/
structure DiscoveryState where
  gameStartEventFilter : GamesFilter
  listOfStartGamesLiveQuery : Option (List GameStartRecord)
  deriving DecidableEq, Repr

/-- Modelled from the spec: the asynchronous completion behaviour of
`useLiveQuery` keyed on `[gameStartEventFilter]` is library code outside the
provided sources. The spec's canonical latest-window-wins rule: a refresh
tick replaces the window (`setGameStartEventFilter(createGameOverviewFilter(new
Date()))`), and a query completion carries the window it was issued for and
is applied only when that window is still the held one; otherwise it is
silently dropped. -/
inductive DiscoveryEvent
  | tick (now : Int)
  | completion (issuedFilter : GamesFilter) (result : List GameStartRecord)

def discoveryStep (development : Bool) :
    DiscoveryEvent → DiscoveryState → DiscoveryState
  | .tick now, s =>
    { s with gameStartEventFilter := createGameOverviewFilter development now }
  | .completion issued result, s =>
    if issued = s.gameStartEventFilter then
      { s with listOfStartGamesLiveQuery := some result }
    else s

/-- `__dev_createMultipleGames` of `CreateMultipleGamesButton`, embedded as
the total number of game-creation clicks it triggers: a `for` loop of
`amount` clicks when `amount <= chunks`, otherwise a chunk of 10 clicks
followed (after a fixed 4 ms `setTimeout` delay) by the recursion on the
remainder. -/
def __dev_createMultipleGames (amount : Nat) : Nat :=
  if amount ≤ 10 then amount
  else 10 + __dev_createMultipleGames (amount - 10)
termination_by amount
decreasing_by omega

/-- The sizes of the chunks the batch creator issues, in order (each chunk
after the previous one's fixed 4 ms delay). -/
def chunkSchedule (amount : Nat) : List Nat :=
  if amount ≤ 10 then [amount]
  else 10 :: chunkSchedule (amount - 10)
termination_by amount
decreasing_by omega

end Lobby

namespace Search

open Jester

/-- The component state of `SearchPage`: the controlled input value, the
result list (`null` when no search has been evaluated), and the validity
flag (`null` = undetermined, `some false` = not a game id, `some true` =
recognised). -/
structure SearchPageState where
  searchInputValue : List Char
  searchResults : Option (List (List Char))
  inputIsJesterId : Option Bool
  deriving DecidableEq, Repr

/-- `search` of `SearchPage`. Returns the updated state together with the
navigation it performs (`some jesterId` for
`navigate(redirect/game/jesterId)`, `none` when it returns without
navigating). -/
def search (searchInput : List Char) (s : SearchPageState) :
    SearchPageState × Option (List Char) :=
  if searchInput = [] then
    ({ s with searchResults := some [] }, none)
  else
    match findOcc prefixChars searchInput with
    | none =>
      ({ s with inputIsJesterId := some false, searchResults := some [] }, none)
    | some indexOfPrefix =>
      let possibleJesterId := searchInput.drop indexOfPrefix
      match tryParseJesterId possibleJesterId with
      | none =>
        ({ s with searchResults := some [], inputIsJesterId := some false }, none)
      | some jesterId =>
        ({ s with inputIsJesterId := some true, searchResults := none }, some jesterId)

/-- `onSearchInputChange` of `SearchPage`: stores the new input value and
resets both the results and the validity flag to `null`. -/
def onSearchInputChange (value : List Char) (s : SearchPageState) : SearchPageState :=
  { s with searchInputValue := value, inputIsJesterId := none, searchResults := none }

end Search

namespace Jester

theorem prefixChars_eq : prefixChars = JESTER_ID_PREFIX ++ ['1'] := rfl

theorem charToVal_valToChar : ∀ v, v < 32 → charToVal (valToChar v) = some v := by
  decide

theorem pack_lt {bs : List Nat} (h : ∀ b ∈ bs, b < 256) : ∀ v ∈ pack bs, v < 32 := by
  induction bs with
  | nil => simp [pack]
  | cons b bs ih =>
    intro v hv
    have hb : b < 256 := h b (List.mem_cons_self b bs)
    simp only [pack, List.mem_cons] at hv
    rcases hv with rfl | rfl | hv
    · omega
    · omega
    · exact ih (fun x hx => h x (List.mem_cons_of_mem b hx)) v hv

theorem unpack_pack {bs : List Nat} (h : ∀ b ∈ bs, b < 256) : unpack (pack bs) = some bs := by
  induction bs with
  | nil => rfl
  | cons b bs ih =>
    have hb : b < 256 := h b (List.mem_cons_self b bs)
    have hdiv : b / 32 < 8 := by omega
    have hbeq : 32 * (b / 32) + b % 32 = b := by omega
    simp only [pack, unpack, if_pos hdiv, ih (fun x hx => h x (List.mem_cons_of_mem b hx)),
      Option.map_some', hbeq]

theorem mapVals_map_valToChar {vs : List Nat} (h : ∀ v ∈ vs, v < 32) :
    mapVals (vs.map valToChar) = some vs := by
  induction vs with
  | nil => rfl
  | cons v vs ih =>
    have hv : v < 32 := h v (List.mem_cons_self v vs)
    simp only [List.map_cons, mapVals, charToVal_valToChar v hv,
      ih (fun x hx => h x (List.mem_cons_of_mem v hx)), Option.map_some']

theorem findOcc_cons_of_isPrefixOf {pat : List Char} {c : Char} {rest : List Char}
    (h : pat.isPrefixOf (c :: rest) = true) : findOcc pat (c :: rest) = some 0 := by
  simp only [findOcc, h, if_true]

theorem findOcc_prefix_append (rest : List Char) :
    findOcc prefixChars (prefixChars ++ rest) = some 0 := by
  have hpre : prefixChars.isPrefixOf (prefixChars ++ rest) = true := by
    simp [List.isPrefixOf_iff_prefix]
  show findOcc prefixChars ('j' :: ('e' :: 's' :: 't' :: 'e' :: 'r' :: '1' :: rest)) = some 0
  exact findOcc_cons_of_isPrefixOf hpre

theorem checksum_lt (vals : List Nat) : checksum vals < 32 :=
  Nat.mod_lt _ (by norm_num)

/-- Every group value occurring in the full encoded payload (data groups plus
checksum group) is below 32. -/
theorem encodeVals_lt {bs : List Nat} (h : ∀ b ∈ bs, b < 256) :
    ∀ v ∈ pack bs ++ [checksum (pack bs)], v < 32 := by
  intro v hv
  rcases List.mem_append.mp hv with hv | hv
  · exact pack_lt h v hv
  · rcases List.mem_singleton.mp hv with rfl
    exact checksum_lt _

/-- Round-trip: decoding an encoded valid raw id recovers it. -/
theorem decode_encode {bs : List Nat} (h : ValidRaw bs) :
    decodeJesterId (gameIdToJesterId bs) = .ok bs := by
  obtain ⟨hlen, hlt⟩ := h
  simp only [gameIdToJesterId, decodeJesterId, findOcc_prefix_append, Nat.zero_add,
    List.drop_left, mapVals_map_valToChar (encodeVals_lt hlt), List.getLast?_concat,
    List.dropLast_concat, unpack_pack hlt, hlen, eq_self_iff_true, if_true]

/-- The prefix pattern cannot start at a character different from `'j'`. -/
theorem isPrefixOf_cons_ne {c : Char} {t : List Char} (h : c ≠ 'j') :
    prefixChars.isPrefixOf (c :: t) = false := by
  have hj : ('j' == c) = false := beq_eq_false_iff_ne.mpr (Ne.symm h)
  simp [prefixChars, List.isPrefixOf, hj]

theorem findOcc_cons_of_not_prefix {pat : List Char} {c : Char} {rest : List Char}
    (h : pat.isPrefixOf (c :: rest) = false) :
    findOcc pat (c :: rest) = (findOcc pat rest).map (· + 1) := by
  simp only [findOcc, h, Bool.false_eq_true, if_false]

/-- Locating the prefix skips over any leading text that cannot start an
occurrence (no `'j'` in it). -/
theorem findOcc_append_no_j {pre : List Char} (hj : 'j' ∉ pre) (s : List Char) :
    findOcc prefixChars (pre ++ s) = (findOcc prefixChars s).map (· + pre.length) := by
  induction pre with
  | nil =>
    simp only [List.nil_append, List.length_nil]
    cases heq : findOcc prefixChars s <;> simp
  | cons c pre ih =>
    have hc : c ≠ 'j' := fun hcj => hj (hcj ▸ List.mem_cons_self c pre)
    have hpre : 'j' ∉ pre := fun hmem => hj (List.mem_cons_of_mem c hmem)
    rw [List.cons_append, findOcc_cons_of_not_prefix (isPrefixOf_cons_ne hc), ih hpre,
      Option.map_map]
    cases heq : findOcc prefixChars s with
    | none => simp
    | some v => simp [Function.comp, Nat.add_assoc]

/-- A candidate in which the prefix never occurs as an infix is rejected as
`MalformedIdentifier`. -/
theorem findOcc_eq_none_of_not_infix {s : List Char} (h : ¬ prefixChars <:+: s) :
    findOcc prefixChars s = none := by
  induction s with
  | nil => simp [findOcc, prefixChars]
  | cons c rest ih =>
    have h1 : ¬ prefixChars <+: c :: rest := fun hp => h (List.infix_cons_iff.mpr (Or.inl hp))
    have h2 : ¬ prefixChars <:+: rest := fun hp => h (List.infix_cons_iff.mpr (Or.inr hp))
    have h1' : prefixChars.isPrefixOf (c :: rest) = false := by
      cases heq : prefixChars.isPrefixOf (c :: rest)
      · rfl
      · exact absurd (List.isPrefixOf_iff_prefix.mp heq) h1
    simp [findOcc, h1', ih h2]

theorem decode_malformed {s : List Char} (h : ¬ prefixChars <:+: s) :
    decodeJesterId s = .error .malformedIdentifier := by
  simp only [decodeJesterId, findOcc_eq_none_of_not_infix h]

/-- Dropping the length of the left part plus `k` drops `k` of the right part. -/
theorem drop_append_length_add {α : Type} (l₁ l₂ : List α) (k : Nat) :
    (l₁ ++ l₂).drop (l₁.length + k) = l₂.drop k := by
  rw [← List.drop_drop, List.drop_left]

/-- The decoder locates the identifier even when it is embedded mid-string
(e.g. inside a full URL), as long as the leading junk cannot start an
occurrence of the prefix. -/
theorem decode_embedded {pre : List Char} {bs : List Nat} (hj : 'j' ∉ pre)
    (h : ValidRaw bs) : decodeJesterId (pre ++ gameIdToJesterId bs) = .ok bs := by
  obtain ⟨hlen, hlt⟩ := h
  have hfind : findOcc prefixChars (pre ++ gameIdToJesterId bs) = some pre.length := by
    rw [findOcc_append_no_j hj, gameIdToJesterId, findOcc_prefix_append]
    simp
  have hdrop : (pre ++ gameIdToJesterId bs).drop (pre.length + prefixChars.length) =
      (pack bs ++ [checksum (pack bs)]).map valToChar := by
    rw [drop_append_length_add, gameIdToJesterId, List.drop_left]
  simp only [decodeJesterId, hfind, hdrop, mapVals_map_valToChar (encodeVals_lt hlt),
    List.getLast?_concat, List.dropLast_concat, unpack_pack hlt, hlen, eq_self_iff_true,
    if_true]

/-- A structurally valid payload whose checksum group is wrong is rejected
as `ChecksumMismatch`. -/
theorem decode_bad_checksum {bs : List Nat} {v : Nat} (h : ValidRaw bs) (hv : v < 32)
    (hne : v ≠ checksum (pack bs)) :
    decodeJesterId (prefixChars ++ (pack bs ++ [v]).map valToChar) =
      .error .checksumMismatch := by
  obtain ⟨hlen, hlt⟩ := h
  have hbound : ∀ x ∈ pack bs ++ [v], x < 32 := by
    intro x hx
    rcases List.mem_append.mp hx with hx | hx
    · exact pack_lt hlt x hx
    · rcases List.mem_singleton.mp hx with rfl
      exact hv
  simp only [decodeJesterId, findOcc_prefix_append, Nat.zero_add, List.drop_left,
    mapVals_map_valToChar hbound, List.getLast?_concat, List.dropLast_concat,
    unpack_pack hlt, hlen, eq_self_iff_true, if_true, if_neg hne]

/-- Encoding is injective on valid raw ids (a consequence of the round
trip). -/
theorem gameIdToJesterId_injOn {x y : List Nat} (hx : ValidRaw x) (hy : ValidRaw y)
    (h : gameIdToJesterId x = gameIdToJesterId y) : x = y := by
  have hx' := decode_encode hx
  rw [h, decode_encode hy] at hx'
  exact (Except.ok.inj hx').symm

end Jester

namespace Lobby

/-- Every record a store query returns was in the store and matches the
query condition. -/
theorem mem_storeQuery {store : List GameStartRecord} {p : GameStartRecord → Bool}
    {limit : Nat} {r : GameStartRecord} (hr : r ∈ storeQuery store p limit) :
    r ∈ store ∧ p r = true := by
  have h1 : r ∈ List.insertionSort byTime (store.filter p) :=
    List.take_subset _ _ hr
  exact List.mem_filter.mp ((List.perm_insertionSort byTime _).subset h1)

/-- A store query never returns more than its limit. -/
theorem storeQuery_length_le (store : List GameStartRecord) (p : GameStartRecord → Bool)
    (limit : Nat) : (storeQuery store p limit).length ≤ limit := by
  simp [storeQuery, List.length_take]

/-- A store query's result is ordered by creation time. -/
theorem storeQuery_sorted (store : List GameStartRecord) (p : GameStartRecord → Bool)
    (limit : Nat) : SortedByTime (storeQuery store p limit) :=
  (List.sorted_insertionSort byTime (store.filter p)).sublist
    (List.take_sublist limit _)

/-- When no more records match than the limit allows, every matching record
of the store is returned. -/
theorem storeQuery_complete {store : List GameStartRecord} {p : GameStartRecord → Bool}
    {limit : Nat} (h : (store.filter p).length ≤ limit) {r : GameStartRecord}
    (hr : r ∈ store) (hp : p r = true) : r ∈ storeQuery store p limit := by
  unfold storeQuery
  have hlen : (List.insertionSort byTime (store.filter p)).length ≤ limit := by
    rw [(List.perm_insertionSort byTime _).length_eq]
    exact h
  rw [List.take_of_length_le hlen]
  exact (List.perm_insertionSort byTime _).mem_iff.mpr (List.mem_filter.mpr ⟨hr, hp⟩)

end Lobby

open Jester Lobby Search

/-- C1: Round-trip of the identifier codec — for every valid 32-byte raw
game id `x`, `jesterIdToGameId`'s underlying decoder applied to
`gameIdToJesterId x` succeeds (no failure case) and returns `x`. -/
theorem C1_codec_round_trip (bs : List Nat) (h : ValidRaw bs) :
    decodeJesterId (gameIdToJesterId bs) = .ok bs :=
  decode_encode h

/-- Witness for C1 at the all-zero 32-byte id. -/
theorem C1_codec_round_trip_witness :
    ValidRaw (List.replicate 32 0) ∧
    decodeJesterId (gameIdToJesterId (List.replicate 32 0)) =
      .ok (List.replicate 32 0) :=
  ⟨by decide, C1_codec_round_trip (List.replicate 32 0) (by decide)⟩

/-- C4: `createGameOverviewFilter` computes `from = now − D` and
`until = now + D` for the configured duration `D` (in milliseconds), hence
`from < now < until`, and the window width `until − from` is the constant
`2·D`, identical across all recomputations. -/
theorem C4_compute_window (development : Bool) (now : Int) :
    (createGameOverviewFilter development now).fromTime =
      now - GAMES_FILTER_PAST_DURATION_IN_SECONDS development * 1000 ∧
    (createGameOverviewFilter development now).untilTime =
      now + GAMES_FILTER_PAST_DURATION_IN_SECONDS development * 1000 ∧
    (createGameOverviewFilter development now).fromTime < now ∧
    now < (createGameOverviewFilter development now).untilTime ∧
    (createGameOverviewFilter development now).untilTime -
        (createGameOverviewFilter development now).fromTime =
      2 * (GAMES_FILTER_PAST_DURATION_IN_SECONDS development * 1000) ∧
    ∀ now' : Int,
      (createGameOverviewFilter development now').untilTime -
          (createGameOverviewFilter development now').fromTime =
        (createGameOverviewFilter development now).untilTime -
          (createGameOverviewFilter development now).fromTime := by
  have hD : 0 < GAMES_FILTER_PAST_DURATION_IN_SECONDS development * 1000 := by
    cases development <;> decide
  refine ⟨rfl, rfl, sub_lt_self now hD, lt_add_of_pos_right now hD, ?_, fun x => ?_⟩
  · simp only [createGameOverviewFilter]
    ring
  · simp only [createGameOverviewFilter]
    ring

/-- C9: the development batch-game creator, invoked with any non-negative
amount, terminates (it is a total function of the amount) and triggers
exactly that many game-creation requests, issued in chunks of at most the
fixed size 10. -/
theorem C9_batch_creator (amount : Nat) :
    __dev_createMultipleGames amount = amount ∧
    (chunkSchedule amount).sum = amount ∧
    ∀ c ∈ chunkSchedule amount, c ≤ 10 := by
  induction amount using Nat.strong_induction_on with
  | _ n ih =>
    by_cases h : n ≤ 10
    · refine ⟨?_, ?_, ?_⟩
      · rw [__dev_createMultipleGames]
        simp [h]
      · rw [chunkSchedule]
        simp [h]
      · rw [chunkSchedule]
        simp only [h, if_true, List.mem_singleton]
        rintro c rfl
        exact h
    · obtain ⟨ih1, ih2, ih3⟩ := ih (n - 10) (by omega)
      refine ⟨?_, ?_, ?_⟩
      · rw [__dev_createMultipleGames]
        simp only [h, if_false]
        omega
      · rw [chunkSchedule]
        simp only [h, if_false, List.sum_cons, ih2]
        omega
      · rw [chunkSchedule]
        simp only [h, if_false, List.mem_cons]
        rintro c (rfl | hc)
        · exact Nat.le_refl 10
        · exact ih3 c hc

/-- C10: `search` on an empty input sets the result list to empty, returns
without navigating, and leaves the validity flag exactly as it was — in
particular, after any input change (which resets both results and flag to
null) it remains null, neither valid nor invalid. -/
theorem C10_search_empty_input :
    (∀ (v : List Char) (s : SearchPageState),
      (onSearchInputChange v s).searchResults = none ∧
      (onSearchInputChange v s).inputIsJesterId = none) ∧
    (∀ s : SearchPageState,
      (search [] s).1.searchResults = some [] ∧
      (search [] s).2 = none ∧
      (search [] s).1.inputIsJesterId = s.inputIsJesterId) ∧
    (∀ (v : List Char) (s : SearchPageState),
      (search [] (onSearchInputChange v s)).1.inputIsJesterId = none ∧
      (search [] (onSearchInputChange v s)).1.searchResults = some [] ∧
      (search [] (onSearchInputChange v s)).2 = none) := by
  refine ⟨fun v s => ⟨rfl, rfl⟩, fun s => ⟨?_, ?_, ?_⟩, fun v s => ⟨?_, ?_, ?_⟩⟩ <;>
    simp [search, onSearchInputChange]

/-- C7: current-game exclusivity — the tracker holds at most one value (its
state is a single optional identifier); after `setCurrent A` then
`setCurrent B` exactly `B` is held; after `clearCurrent` the state is empty
and `isCurrent` is false for every record; and `clearCurrent` is the only
transition producing the empty state. -/
theorem C7_tracker_exclusivity :
    (∀ (s : Option (List Char)) (A B : List Char),
      trackerStep (.setCurrent B) (trackerStep (.setCurrent A) s) = some B) ∧
    (∀ (s : Option (List Char)) (A B : List Char), A ≠ B →
      trackerStep (.setCurrent B) (trackerStep (.setCurrent A) s) ≠ some A) ∧
    (∀ s : Option (List Char), trackerStep .clearCurrent s = none) ∧
    (∀ (s : Option (List Char)) (g : GameStartRecord),
      isCurrent g (trackerStep .clearCurrent s) = false) ∧
    (∀ (e : TrackerEvent) (s : Option (List Char)),
      trackerStep e s = none → e = .clearCurrent) := by
  refine ⟨fun s A B => rfl, fun s A B hAB h => hAB (Option.some.inj h).symm,
    fun s => rfl, fun s g => rfl, fun e s h => ?_⟩
  cases e with
  | setCurrent id => exact absurd h (by simp [trackerStep])
  | clearCurrent => rfl

/-- Witness for C7 at concrete identifiers. -/
theorem C7_tracker_exclusivity_witness :
    trackerStep (.setCurrent ['b']) (trackerStep (.setCurrent ['a']) none) ≠
      some ['a'] ∧
    TrackerEvent.clearCurrent = TrackerEvent.clearCurrent :=
  ⟨C7_tracker_exclusivity.2.1 none ['a'] ['b'] (by decide),
   C7_tracker_exclusivity.2.2.2.2 .clearCurrent none rfl⟩

/-- C8: stale-result rejection (latest-window-wins) — a completion whose
issued window differs from the held window leaves the state (in particular
the presented list) unchanged; the presented list changes only through a
completion whose issued window equals the held one, which is then
applied. -/
theorem C8_stale_result_rejection :
    (∀ (development : Bool) (s : DiscoveryState) (issued : GamesFilter)
        (result : List GameStartRecord), issued ≠ s.gameStartEventFilter →
      discoveryStep development (.completion issued result) s = s) ∧
    (∀ (development : Bool) (s : DiscoveryState) (issued : GamesFilter)
        (result : List GameStartRecord),
      (discoveryStep development
            (.completion issued result) s).listOfStartGamesLiveQuery ≠
          s.listOfStartGamesLiveQuery →
        issued = s.gameStartEventFilter) ∧
    (∀ (development : Bool) (s : DiscoveryState) (result : List GameStartRecord),
      (discoveryStep development
          (.completion s.gameStartEventFilter result) s).listOfStartGamesLiveQuery =
        some result) := by
  refine ⟨fun dev s issued result h => ?_, fun dev s issued result h => ?_,
    fun dev s result => ?_⟩
  · simp [discoveryStep, h]
  · by_contra hne
    exact h (by simp [discoveryStep, hne])
  · simp [discoveryStep]

/-- Witness for C8: a completion for an already superseded window is
discarded. -/
theorem C8_stale_result_rejection_witness :
    discoveryStep false
        (.completion { fromTime := 0, untilTime := 1 } [])
        { gameStartEventFilter := { fromTime := 5, untilTime := 9 },
          listOfStartGamesLiveQuery := none } =
      { gameStartEventFilter := { fromTime := 5, untilTime := 9 },
        listOfStartGamesLiveQuery := none } :=
  C8_stale_result_rejection.1 false
    { gameStartEventFilter := { fromTime := 5, untilTime := 9 },
      listOfStartGamesLiveQuery := none }
    { fromTime := 0, untilTime := 1 } [] (by decide)

/-- C2: the private-challenges query — empty when no viewer key is
available; otherwise exactly the store records tagged with the viewer's
derived reference tag (records with another key's tag excluded), capped at
3 results, ordered by creation time. -/
theorem C2_query_private_challenges :
    (∀ store : List GameStartRecord, privateGamesPresented store none = []) ∧
    (∀ (store : List GameStartRecord) (pk : List Char),
      (privateGamesPresented store (some pk)).length ≤ 3 ∧
      SortedByTime (privateGamesPresented store (some pk)) ∧
      (∀ r ∈ privateGamesPresented store (some pk),
        r ∈ store ∧ jesterPrivateStartGameRef pk ∈ r.event_tags) ∧
      ((store.filter (hasTag (jesterPrivateStartGameRef pk))).length ≤ 3 →
        ∀ r ∈ store, jesterPrivateStartGameRef pk ∈ r.event_tags →
          r ∈ privateGamesPresented store (some pk))) := by
  constructor
  · intro store
    rfl
  · intro store pk
    have hpres : privateGamesPresented store (some pk) =
        storeQuery store (hasTag (jesterPrivateStartGameRef pk)) 3 := rfl
    rw [hpres]
    refine ⟨storeQuery_length_le _ _ _, storeQuery_sorted _ _ _, ?_, ?_⟩
    · intro r hr
      obtain ⟨h1, h2⟩ := mem_storeQuery hr
      refine ⟨h1, ?_⟩
      simpa [hasTag] using h2
    · intro hlen r hr htag
      exact storeQuery_complete hlen hr (by simp [hasTag, htag])

/-- Witness for C2: the spec scenario — two events carrying the viewer's
reference tag are returned, the third (another key's tag) is excluded. -/
theorem C2_query_private_challenges_witness :
    (⟨[1], [], 10, [['r', 'e', 'f', 'k']]⟩ : GameStartRecord) ∈
      privateGamesPresented
        [⟨[1], [], 10, [['r', 'e', 'f', 'k']]⟩,
         ⟨[2], [], 5, [['r', 'e', 'f', 'k']]⟩,
         ⟨[3], [], 7, [['r', 'e', 'f', 'm']]⟩]
        (some ['k']) :=
  (C2_query_private_challenges.2
      [⟨[1], [], 10, [['r', 'e', 'f', 'k']]⟩,
       ⟨[2], [], 5, [['r', 'e', 'f', 'k']]⟩,
       ⟨[3], [], 7, [['r', 'e', 'f', 'm']]⟩]
      ['k']).2.2.2 (by decide) ⟨[1], [], 10, [['r', 'e', 'f', 'k']]⟩
    (by decide) (by decide)

/-- C3: the public-games query returns only records whose creation
timestamp lies in the half-open window `[from, until)` (in the source's
units: millisecond bounds against second timestamps scaled by 1000), is
truncated to `MAX_AMOUNT_OF_GAMES = 100` regardless of the store's size, a
record at or past `until` is never returned, and as long as no more than
100 records match, every matching record is returned. -/
theorem C3_query_public_games (store : List GameStartRecord) (f : GamesFilter) :
    (∀ r ∈ listOfStartGames store f,
      r ∈ store ∧ f.fromTime ≤ r.created_at * 1000 ∧ r.created_at * 1000 < f.untilTime) ∧
    (listOfStartGames store f).length ≤ MAX_AMOUNT_OF_GAMES ∧
    (∀ r ∈ store, f.untilTime ≤ r.created_at * 1000 → r ∉ listOfStartGames store f) ∧
    ((store.filter (inWindow f)).length ≤ MAX_AMOUNT_OF_GAMES →
      ∀ r ∈ store, f.fromTime ≤ r.created_at * 1000 → r.created_at * 1000 < f.untilTime →
        r ∈ listOfStartGames store f) := by
  have hdef : listOfStartGames store f = storeQuery store (inWindow f) MAX_AMOUNT_OF_GAMES :=
    rfl
  rw [hdef]
  refine ⟨?_, storeQuery_length_le _ _ _, ?_, ?_⟩
  · intro r hr
    obtain ⟨h1, h2⟩ := mem_storeQuery hr
    simp only [inWindow, Bool.and_eq_true, decide_eq_true_eq] at h2
    exact ⟨h1, h2.1, h2.2⟩
  · intro r _ hge hmem
    obtain ⟨-, h2⟩ := mem_storeQuery hmem
    simp only [inWindow, Bool.and_eq_true, decide_eq_true_eq] at h2
    omega
  · intro hlen r hr h1 h2
    exact storeQuery_complete hlen hr (by simp [inWindow, h1, h2])

/-- Witness for C3: the spec scenario with the production duration
`D = 300 s` around `t0 = 10^9 s`: a record at `t0 + 299` is included, one at
`t0 + 301` is excluded. -/
theorem C3_query_public_games_witness :
    (⟨[1], [], 1000000299, []⟩ : GameStartRecord) ∈
      listOfStartGames
        [⟨[1], [], 1000000299, []⟩, ⟨[2], [], 1000000301, []⟩]
        (createGameOverviewFilter false 1000000000000) ∧
    (⟨[2], [], 1000000301, []⟩ : GameStartRecord) ∉
      listOfStartGames
        [⟨[1], [], 1000000299, []⟩, ⟨[2], [], 1000000301, []⟩]
        (createGameOverviewFilter false 1000000000000) :=
  ⟨(C3_query_public_games
        [⟨[1], [], 1000000299, []⟩, ⟨[2], [], 1000000301, []⟩]
        (createGameOverviewFilter false 1000000000000)).2.2.2 (by decide)
      ⟨[1], [], 1000000299, []⟩ (by decide) (by decide) (by decide),
   (C3_query_public_games
        [⟨[1], [], 1000000299, []⟩, ⟨[2], [], 1000000301, []⟩]
        (createGameOverviewFilter false 1000000000000)).2.2.1
      ⟨[2], [], 1000000301, []⟩ (by decide) (by decide)⟩

/-- C5: the decoder is total on arbitrary candidates (it is a function into
tagged results), rejects the empty string and any string in which the
prefix never occurs as `MalformedIdentifier`, locates the prefix at any
position (an identifier embedded after arbitrary junk that cannot start the
prefix still decodes), reports a wrong checksum on a structurally valid
payload as `ChecksumMismatch`, and reports structural failures (foreign
character, truncated payload) as `InvalidEncoding`. -/
theorem C5_decode_robust :
    (decodeJesterId [] = .error .malformedIdentifier) ∧
    (∀ s : List Char, ¬ prefixChars <:+: s →
      decodeJesterId s = .error .malformedIdentifier) ∧
    (∀ (pre : List Char) (bs : List Nat), 'j' ∉ pre → ValidRaw bs →
      decodeJesterId (pre ++ gameIdToJesterId bs) = .ok bs) ∧
    (∀ (bs : List Nat) (v : Nat), ValidRaw bs → v < 32 → v ≠ checksum (pack bs) →
      decodeJesterId (prefixChars ++ (pack bs ++ [v]).map valToChar) =
        .error .checksumMismatch) ∧
    (decodeJesterId (prefixChars ++ ['b']) = .error .invalidEncoding) ∧
    (decodeJesterId prefixChars = .error .invalidEncoding) := by
  refine ⟨by decide, fun s h => decode_malformed h,
    fun pre bs hj hb => decode_embedded hj hb,
    fun bs v hb hv hne => decode_bad_checksum hb hv hne, by decide, by decide⟩

/-- Witness for C5: a prefix-free string is malformed; an identifier inside
a URL-like string decodes; a corrupted checksum character is flagged. -/
theorem C5_decode_robust_witness :
    decodeJesterId ['h', 'i'] = .error .malformedIdentifier ∧
    decodeJesterId (['u', 'r', 'l', '/'] ++ gameIdToJesterId (List.replicate 32 0)) =
      .ok (List.replicate 32 0) ∧
    decodeJesterId (prefixChars ++ (pack (List.replicate 32 0) ++ [1]).map valToChar) =
      .error .checksumMismatch :=
  ⟨C5_decode_robust.2.1 ['h', 'i'] (by decide),
   C5_decode_robust.2.2.1 ['u', 'r', 'l', '/'] (List.replicate 32 0) (by decide) (by decide),
   C5_decode_robust.2.2.2.1 (List.replicate 32 0) 1 (by decide) (by decide) (by decide)⟩

/-- C6: current-game marking — with no identifier held nothing is marked;
with a held identifier that encodes some valid raw id, a record is marked
exactly when encoding its raw id yields the held public identifier. The
check (`isCurrentGame`) is a pure boolean function. -/
theorem C6_current_game_marking :
    (∀ g : GameStartRecord, isCurrentGame g (currentGameId none) = false) ∧
    (∀ (g : GameStartRecord) (y : List Nat), ValidRaw g.id → ValidRaw y →
      (isCurrentGame g (currentGameId (some (gameIdToJesterId y))) = true ↔
        gameIdToJesterId g.id = gameIdToJesterId y)) := by
  constructor
  · intro g
    rfl
  · intro g y hg hy
    have hdec : jesterIdToGameId (gameIdToJesterId y) = some y := by
      rw [jesterIdToGameId, decode_encode hy]
      rfl
    have hcur : currentGameId (some (gameIdToJesterId y)) = some y := by
      simp [currentGameId, hdec]
    rw [hcur]
    simp only [isCurrentGame, decide_eq_true_eq]
    constructor
    · intro h
      rw [h]
    · intro h
      exact gameIdToJesterId_injOn hg hy h

/-- Witness for C6 at the all-zero id. -/
theorem C6_current_game_marking_witness :
    isCurrentGame ⟨List.replicate 32 0, [], 0, []⟩
        (currentGameId (some (gameIdToJesterId (List.replicate 32 0)))) = true ↔
      gameIdToJesterId (List.replicate 32 0) = gameIdToJesterId (List.replicate 32 0) :=
  C6_current_game_marking.2 ⟨List.replicate 32 0, [], 0, []⟩ (List.replicate 32 0)
    (by decide) (by decide)

/-- Witness for C9 at amount 21 (the amount the lobby passes in development
mode): 21 creation requests in chunks 10, 10, 1. -/
theorem C9_batch_creator_witness :
    __dev_createMultipleGames 21 = 21 ∧ (10 : Nat) ≤ 10 :=
  ⟨(C9_batch_creator 21).1, (C9_batch_creator 21).2.2 10 (by simp [chunkSchedule])⟩
